import Mathlib

/-!
Verification development for the migi schema-migration tool.

The definitions below are a shallow embedding of the Rust sources:
  src/lib.rs            (Dialect, Options)
  src/dbinfo/mod.rs     (Dbinfo, Catalog, Schema, Table, Column, TableName)
  src/inspector/mod.rs  (Inspector::inspect_table_name, inspect_column,
                         the CreateTable arm of inspect_stmt)
  src/migrate/mod.rs    (MigrationGenerator and the hierarchical diff)

Modelling conventions:
  - Rust HashMap<String, V> becomes an association list (List (String × V))
    with first-match lookup and replace-in-place insertion; key iteration
    order is the list order (HashMap/HashSet iteration order is arbitrary
    in Rust, and no property proved here depends on it).
  - anyhow::Result becomes Except Err; a Rust panic (unwrap on a missing
    key, or a todo! placeholder) is modelled as the dedicated error values
    Err.panic and Err.todo so that it is distinguishable from the
    anyhow::bail error paths.
  - sqlparser AST payloads that migi stores but never interprets
    (DataType, TableConstraint, SqlOption, ColumnOptionDef, OnCommit,
    Expr, Ident lists) are modelled as opaque strings or string lists;
    only their decidable equality is relevant to the diff engine.
  - the MigrationGenerator pushes operations onto a vector held in
    self.migrations; here every gen_ function returns the list of
    operations it pushes, in push order, and callers concatenate them in
    the same order, which yields the identical final operation sequence.
-/

namespace Migi

/-- Dialect enumeration, from src/lib.rs. -/
inductive Dialect where
  | postgreSql
  | mySql
  | sqlite
deriving DecidableEq, Repr

/-- Options, from src/lib.rs (the fields consumed by Dbinfo::with_options). -/
structure Options where
  dialect : Dialect
  database : String
  default_schema : String
deriving DecidableEq, Repr

/-- Identifier, from sqlparser's Ident; only the value field is ever read
by the modelled code paths. -/
structure Ident where
  value : String
deriving DecidableEq, Repr

/-- Column, from src/dbinfo/mod.rs; data_type, collation and options are
opaque sqlparser payloads. -/
structure Column where
  name : String
  data_type : String
  collation : Option String
  options : List String
deriving DecidableEq, Repr

/-- Table, from src/dbinfo/mod.rs; the non-column fields are opaque
comparison-relevant metadata. -/
structure Table where
  name : String
  columns : List Column
  constraints : List String
  with_options : List String
  without_rowid : Bool
  engine : Option String
  comment : Option String
  auto_increment_offset : Option Nat
  default_charset : Option String
  collation : Option String
  on_commit : Option String
  order_by : Option (List String)
  partition_by : Option String
  options : Option (List String)
  strict : Bool
deriving DecidableEq, Repr

/-- Schema, from src/dbinfo/mod.rs; tables is a HashMap, modelled as an
association list. -/
structure Schema where
  name : String
  tables : List (String × Table)
deriving DecidableEq, Repr

/-- Catalog, from src/dbinfo/mod.rs. -/
structure Catalog where
  name : String
  default_schema : String
  schemas : List (String × Schema)
deriving DecidableEq, Repr

/-- Dbinfo, the catalog-model root, from src/dbinfo/mod.rs. -/
structure Dbinfo where
  dialect : Dialect
  default_catalog : String
  catalogs : List (String × Catalog)
deriving DecidableEq, Repr

/-- TableName, from src/dbinfo/mod.rs. -/
structure TableName where
  catalog : Option Ident
  schema : Option Ident
  table : Ident
deriving DecidableEq, Repr

/-- Error kinds produced by the modelled code.  panic stands for a Rust
panic (unwrap of a missing key), todo for a todo! placeholder body;
the rest correspond to the anyhow::bail / anyhow! error messages. -/
inductive Err where
  | notFound (entity : String)
  | invalidName
  | unsupported (construct : String)
  | unsupportedDiff
  | todo
  | panic
deriving DecidableEq, Repr

/-- First-match lookup in an association list (HashMap::get). -/
def alookup {α : Type} : List (String × α) → String → Option α
  | [], _ => none
  | (k, v) :: rest, key => if k = key then some v else alookup rest key

/-- Insert-or-replace in an association list (HashMap::insert): the first
binding with the key is replaced in place, otherwise the pair is appended. -/
def ainsert {α : Type} : List (String × α) → String → α → List (String × α)
  | [], k, v => [(k, v)]
  | (k0, v0) :: rest, k, v =>
    if k0 = k then (k, v) :: rest else (k0, v0) :: ainsert rest k v

/-- Key sequence of an association list (HashMap::keys). -/
def akeys {α : Type} (m : List (String × α)) : List String :=
  m.map (fun p => p.1)

theorem alookup_isSome_of_mem_akeys {α : Type} {m : List (String × α)} {k : String}
    (h : k ∈ akeys m) : (alookup m k).isSome := by
  induction m with
  | nil => simp [akeys] at h
  | cons p rest ih =>
    by_cases hk : p.1 = k
    · simp [alookup, hk]
    · simp [akeys] at h
      rcases h with h | h
      · exact absurd h.symm hk
      · simpa [alookup, hk] using ih (by simpa [akeys] using h)

theorem mem_of_alookup_eq_some {α : Type} {m : List (String × α)} {k : String} {v : α}
    (h : alookup m k = some v) : (k, v) ∈ m := by
  induction m with
  | nil => simp [alookup] at h
  | cons p rest ih =>
    by_cases hk : p.1 = k
    · simp only [alookup] at h
      rw [if_pos hk] at h
      cases h
      cases p
      simp_all
    · simp only [alookup] at h
      rw [if_neg hk] at h
      exact List.mem_cons_of_mem _ (ih h)

/-- Dbinfo::with_options, src/dbinfo/mod.rs lines 18-33: a fresh model
holding the default catalog with its default schema. -/
def Dbinfo.with_options (options : Options) : Dbinfo :=
  let schema : Schema := { name := options.default_schema, tables := [] }
  let catalog : Catalog :=
    { name := options.database
      default_schema := options.default_schema
      schemas := [(options.default_schema, schema)] }
  { dialect := options.dialect
    default_catalog := options.database
    catalogs := [(options.database, catalog)] }

/-- Dbinfo::add_table, src/dbinfo/mod.rs lines 47-63.  The owning catalog
is the explicit qualifier if present (NotFound when absent from the map),
else the default catalog (whose unwrap panics when the default key is
missing); likewise for the owning schema inside that catalog.  The table
is then inserted keyed by its simple name; the mutation through the
mutable borrows is modelled by writing the updated entries back at the
resolved keys. -/
def Dbinfo.add_table (db : Dbinfo) (name : TableName) (table : Table) :
    Except Err Dbinfo :=
  match
    (match name.catalog with
     | some catalog_name =>
       match alookup db.catalogs catalog_name.value with
       | some cat => Except.ok (catalog_name.value, cat)
       | none => Except.error (Err.notFound "catalog")
     | none =>
       match alookup db.catalogs db.default_catalog with
       | some cat => Except.ok (db.default_catalog, cat)
       | none => Except.error Err.panic : Except Err (String × Catalog)) with
  | Except.error e => Except.error e
  | Except.ok (ckey, cat) =>
    match
      (match name.schema with
       | some schema_name =>
         match alookup cat.schemas schema_name.value with
         | some s => Except.ok (schema_name.value, s)
         | none => Except.error (Err.notFound "schema")
       | none =>
         match alookup cat.schemas cat.default_schema with
         | some s => Except.ok (cat.default_schema, s)
         | none => Except.error Err.panic : Except Err (String × Schema)) with
    | Except.error e => Except.error e
    | Except.ok (skey, sch) =>
      let sch2 : Schema := { sch with tables := ainsert sch.tables name.table.value table }
      let cat2 : Catalog := { cat with schemas := ainsert cat.schemas skey sch2 }
      Except.ok { db with catalogs := ainsert db.catalogs ckey cat2 }

/-- Schema::get_table, src/dbinfo/mod.rs lines 138-143. -/
def Schema.get_table (s : Schema) (name : String) : Except Err Table :=
  match alookup s.tables name with
  | some t => Except.ok t
  | none => Except.error (Err.notFound "table")

/-- Dbinfo::get_table, src/dbinfo/mod.rs lines 77-91: same resolution as
add_table, then a pure lookup of the simple table name. -/
def Dbinfo.get_table (db : Dbinfo) (name : TableName) : Except Err Table :=
  match
    (match name.catalog with
     | some catalog_name =>
       match alookup db.catalogs catalog_name.value with
       | some cat => Except.ok cat
       | none => Except.error (Err.notFound "catalog")
     | none =>
       match alookup db.catalogs db.default_catalog with
       | some cat => Except.ok cat
       | none => Except.error Err.panic : Except Err Catalog) with
  | Except.error e => Except.error e
  | Except.ok cat =>
    match
      (match name.schema with
       | some schema_name =>
         match alookup cat.schemas schema_name.value with
         | some s => Except.ok s
         | none => Except.error (Err.notFound "schema")
       | none =>
         match alookup cat.schemas cat.default_schema with
         | some s => Except.ok s
         | none => Except.error Err.panic : Except Err Schema) with
    | Except.error e => Except.error e
    | Except.ok sch => sch.get_table name.table.value

/-- Inspector::inspect_table_name, src/inspector/mod.rs lines 285-322:
dialect-aware resolution of a 1-3 part identifier into a TableName; any
other shape, and the shapes the dialect does not support, bail with the
invalid-table-name error. -/
def inspect_table_name (dialect : Dialect) (name : List Ident) :
    Except Err TableName :=
  match name with
  | [t] => Except.ok { catalog := none, schema := none, table := t }
  | [a, t] =>
    match dialect with
    | Dialect.postgreSql => Except.ok { catalog := none, schema := some a, table := t }
    | Dialect.mySql => Except.ok { catalog := some a, schema := none, table := t }
    | Dialect.sqlite => Except.error Err.invalidName
  | [c, s, t] =>
    match dialect with
    | Dialect.postgreSql => Except.ok { catalog := some c, schema := some s, table := t }
    | Dialect.mySql => Except.error Err.invalidName
    | Dialect.sqlite => Except.error Err.invalidName
  | _ => Except.error Err.invalidName

/-- ColumnDef, the sqlparser column definition as consumed by
Inspector::inspect_column; payloads are opaque. -/
structure ColumnDef where
  name : Ident
  data_type : String
  collation : Option String
  options : List String
deriving DecidableEq, Repr

/-- Inspector::inspect_column, src/inspector/mod.rs lines 324-332: repack
of the sqlparser column definition into the model Column. -/
def inspect_column (column : ColumnDef) : Except Err Column :=
  Except.ok
    { name := column.name.value
      data_type := column.data_type
      collation := column.collation
      options := column.options }

/-- The collect::<Result<Vec<Column>>> over inspect_column,
src/inspector/mod.rs lines 195-198. -/
def inspect_columns : List ColumnDef → Except Err (List Column)
  | [] => Except.ok []
  | c :: rest =>
    match inspect_column c with
    | Except.error e => Except.error e
    | Except.ok col =>
      match inspect_columns rest with
      | Except.error e => Except.error e
      | Except.ok cols => Except.ok (col :: cols)

/-- The fields of sqlparser's Statement::CreateTable that the CreateTable
arm of Inspector::inspect_stmt reads (src/inspector/mod.rs lines 103-226);
payloads the code only tests for presence are opaque strings. -/
structure CreateTableStmt where
  temporary : Bool
  external : Bool
  transient : Bool
  name : List Ident
  columns : List ColumnDef
  constraints : List String
  table_properties : List String
  with_options : List String
  file_format : Option String
  location : Option String
  query : Option String
  without_rowid : Bool
  like : Option String
  clone : Option String
  engine : Option String
  comment : Option String
  auto_increment_offset : Option Nat
  default_charset : Option String
  collation : Option String
  on_commit : Option String
  on_cluster : Option String
  order_by : Option (List String)
  partition_by : Option String
  cluster_by : Option (List String)
  options : Option (List String)
  strict : Bool
deriving DecidableEq, Repr

/-- The Table value built by the CreateTable arm of inspect_stmt,
src/inspector/mod.rs lines 207-223. -/
def stmt_table (s : CreateTableStmt) (table_name : TableName)
    (cols : List Column) : Table :=
  { name := table_name.table.value
    columns := cols
    constraints := s.constraints
    with_options := s.with_options
    without_rowid := s.without_rowid
    engine := s.engine
    comment := s.comment
    auto_increment_offset := s.auto_increment_offset
    default_charset := s.default_charset
    collation := s.collation
    on_commit := s.on_commit
    order_by := s.order_by
    partition_by := s.partition_by
    options := s.options
    strict := s.strict }

/-- The Statement::CreateTable arm of Inspector::inspect_stmt,
src/inspector/mod.rs lines 103-226: the unsupported-construct gates in
source order, name resolution, column conversion, the late LIKE gate, and
finally the call to Dbinfo::add_table whose Result the source discards
(line 225 has no ? or unwrap), so an add_table failure leaves the model
unchanged and the statement still succeeds. -/
def inspect_create_table (db : Dbinfo) (s : CreateTableStmt) :
    Except Err Dbinfo :=
  if s.temporary then Except.error (Err.unsupported "CREATE TEMPORARY TABLE")
  else if s.external then Except.error (Err.unsupported "CREATE EXTERNAL TABLE")
  else if s.transient then Except.error (Err.unsupported "CREATE TRANSIENT TABLE")
  else if s.table_properties ≠ [] then Except.error (Err.unsupported "TBLPROPERTIES")
  else if s.file_format.isSome then Except.error (Err.unsupported "STORED AS")
  else if s.location.isSome then Except.error (Err.unsupported "LOCATION")
  else if s.query.isSome then Except.error (Err.unsupported "CREATE TABLE AS")
  else if s.clone.isSome then Except.error (Err.unsupported "CLONE")
  else if s.on_cluster.isSome then Except.error (Err.unsupported "ON CLUSTER")
  else if s.cluster_by.isSome then Except.error (Err.unsupported "CLUSTER BY")
  else
    match inspect_table_name db.dialect s.name with
    | Except.error e => Except.error e
    | Except.ok table_name =>
      match inspect_columns s.columns with
      | Except.error e => Except.error e
      | Except.ok cols =>
        if s.like.isSome then Except.error (Err.unsupported "LIKE")
        else
          match db.add_table table_name (stmt_table s table_name cols) with
          | Except.ok db2 => Except.ok db2
          | Except.error _ => Except.ok db

/-- AlterTableOperation, src/migrate/mod.rs lines 22-28 (payload-less in
the source). -/
inductive AlterTableOperation where
  | addColumn
  | dropColumn
  | alterColumn
  | addIndex
  | dropIndex
deriving DecidableEq, Repr

/-- MigrationOperation, src/migrate/mod.rs lines 10-18; ObjectName is a
list of name parts. -/
inductive MigrationOperation where
  | createDatabase (name : String)
  | dropDatabase (name : String)
  | createSchema (name : List String)
  | dropSchema (name : List String)
  | createTable (name : List String) (table : Table)
  | dropTable (name : List String) (table : Table)
  | alterTable (op : AlterTableOperation)
deriving DecidableEq, Repr

/-- One item of the diff::slice output: Left is present only in the
previous sequence, Both in both, Right only in the current sequence. -/
inductive DiffItem where
  | left (a : String)
  | both (a b : String)
  | right (b : String)
deriving DecidableEq, Repr

/-- Length of a longest common subsequence of two name sequences, the
quantity the LCS diff of the diff crate maximises.  The fuel argument is
a structural-recursion device only: every recursive call strictly
decreases the summed length of the two lists, so any fuel of at least
that sum (as supplied by lcsLen below) gives the unbounded recursion. -/
def lcsLenFuel : Nat → List String → List String → Nat
  | 0, _, _ => 0
  | fuel + 1, xs, ys =>
    match xs, ys with
    | [], _ => 0
    | _ :: _, [] => 0
    | a :: as, b :: bs =>
      if a = b then lcsLenFuel fuel as bs + 1
      else max (lcsLenFuel fuel as (b :: bs)) (lcsLenFuel fuel (a :: as) bs)

/-- Length of a longest common subsequence of two name sequences. -/
def lcsLen (xs ys : List String) : Nat :=
  lcsLenFuel (xs.length + ys.length) xs ys

/-- diff::slice of the diff crate, as called at src/migrate/mod.rs line
194: an LCS-based alignment of the two name sequences into
Left/Both/Right items preserving both input orders.  Fueled like
lcsLenFuel for the same structural-recursion reason. -/
def diffSliceFuel : Nat → List String → List String → List DiffItem
  | 0, _, _ => []
  | fuel + 1, xs, ys =>
    match xs, ys with
    | [], rest => rest.map DiffItem.right
    | x :: rest, [] => (x :: rest).map DiffItem.left
    | x :: rest, y :: rest2 =>
      if x = y then DiffItem.both x y :: diffSliceFuel fuel rest rest2
      else if lcsLen (x :: rest) rest2 ≤ lcsLen rest (y :: rest2) then
        DiffItem.left x :: diffSliceFuel fuel rest (y :: rest2)
      else
        DiffItem.right y :: diffSliceFuel fuel (x :: rest) rest2

/-- The LCS-based alignment of two name sequences. -/
def diffSlice (xs ys : List String) : List DiffItem :=
  diffSliceFuel (xs.length + ys.length) xs ys

/-- The single scan of the alignment at src/migrate/mod.rs lines 197-211,
carrying the enumeration index and the two trackers: the first Right
index (kept once set) and the last Both index (overwritten at each Both). -/
def scanDiff : List DiffItem → Nat → Option Nat → Option Nat →
    Option Nat × Option Nat
  | [], _, first_added, last_common => (first_added, last_common)
  | DiffItem.left _ :: rest, i, first_added, last_common =>
    scanDiff rest (i + 1) first_added last_common
  | DiffItem.both _ _ :: rest, i, first_added, _ =>
    scanDiff rest (i + 1) first_added (some i)
  | DiffItem.right _ :: rest, i, first_added, last_common =>
    scanDiff rest (i + 1)
      (match first_added with | none => some i | some v => some v) last_common

/-- MigrationGenerator::gen_alter_column, src/migrate/mod.rs lines
255-264: the body is todo!(), a panic. -/
def gen_alter_column (table_name : List String) (previous_table : Table)
    (previous : Column) (current_table : Table) (current : Column) :
    Except Err (List MigrationOperation) :=
  Except.error Err.todo

/-- MigrationGenerator::gen_drop_column, src/migrate/mod.rs lines
266-273: the body is todo!(), a panic. -/
def gen_drop_column (table_name : List String) (previous_table : Table)
    (previous : Column) : Except Err (List MigrationOperation) :=
  Except.error Err.todo

/-- MigrationGenerator::gen_add_column, src/migrate/mod.rs lines 275-282:
the body is todo!(), a panic. -/
def gen_add_column (table_name : List String) (current_table : Table)
    (current : Column) : Except Err (List MigrationOperation) :=
  Except.error Err.todo

/-- The emission loop of gen_table, src/migrate/mod.rs lines 226-250:
walk the alignment with separate previous/current indexes, dispatching
each item to the corresponding column handler (unwrap of the indexed
column panics when out of range). -/
def gen_table_columns (table_name : List String) (previous current : Table) :
    List DiffItem → Nat → Nat → Except Err (List MigrationOperation)
  | [], _, _ => Except.ok []
  | DiffItem.left _ :: rest, i, j =>
    (match previous.columns.get? i with
     | none => Except.error Err.panic
     | some pc =>
       match gen_drop_column table_name previous pc with
       | Except.error e => Except.error e
       | Except.ok ops =>
         match gen_table_columns table_name previous current rest (i + 1) j with
         | Except.error e => Except.error e
         | Except.ok more => Except.ok (ops ++ more))
  | DiffItem.both _ _ :: rest, i, j =>
    (match previous.columns.get? i, current.columns.get? j with
     | some pc, some cc =>
       (match gen_alter_column table_name previous pc current cc with
        | Except.error e => Except.error e
        | Except.ok ops =>
          match gen_table_columns table_name previous current rest (i + 1) (j + 1) with
          | Except.error e => Except.error e
          | Except.ok more => Except.ok (ops ++ more))
     | _, _ => Except.error Err.panic)
  | DiffItem.right _ :: rest, i, j =>
    (match current.columns.get? j with
     | none => Except.error Err.panic
     | some cc =>
       match gen_add_column table_name current cc with
       | Except.error e => Except.error e
       | Except.ok ops =>
         match gen_table_columns table_name previous current rest i (j + 1) with
         | Except.error e => Except.error e
         | Except.ok more => Except.ok (ops ++ more))

/-- The tail of gen_table after the legality check, src/migrate/mod.rs
lines 221-252: build the qualified table name from the two schema-name
parts (indexing panics when absent) and run the emission loop. -/
def gen_table_emit (schema_name : List String) (previous current : Table)
    (columns_diff : List DiffItem) : Except Err (List MigrationOperation) :=
  match schema_name.get? 0, schema_name.get? 1 with
  | some c0, some c1 =>
    gen_table_columns [c0, c1, current.name] previous current columns_diff 0 0
  | _, _ => Except.error Err.panic

/-- MigrationGenerator::gen_table, src/migrate/mod.rs lines 184-253:
align the two column-name sequences, bail with the unsupported-diff error
when the first Added index precedes the last Kept index, otherwise emit
the per-column operations in alignment order. -/
def gen_table (schema_name : List String) (previous current : Table) :
    Except Err (List MigrationOperation) :=
  let previous_columns := previous.columns.map (fun c => c.name)
  let current_columns := current.columns.map (fun c => c.name)
  let columns_diff := diffSlice previous_columns current_columns
  match scanDiff columns_diff 0 none none with
  | (some first_added, some last_common) =>
    if first_added < last_common then Except.error Err.unsupportedDiff
    else gen_table_emit schema_name previous current columns_diff
  | _ => gen_table_emit schema_name previous current columns_diff

/-- Sequential accumulation of the operations emitted by one body over a
key list, with ?-style error propagation: the shape shared by every
for-loop of the generator that can fail. -/
def foldExcept (f : String → Except Err (List MigrationOperation)) :
    List String → Except Err (List MigrationOperation)
  | [] => Except.ok []
  | k :: rest =>
    match f k with
    | Except.error e => Except.error e
    | Except.ok ops =>
      match foldExcept f rest with
      | Except.error e => Except.error e
      | Except.ok more => Except.ok (ops ++ more)

/-- One iteration of the dropped-tables loop, src/migrate/mod.rs lines
143-154: the payload lookup in the previous schema (unwrap panics when
absent) and the DropTable emission. -/
def dropped_table_op (catalog_name : String) (previous current : Schema)
    (k : String) : Except Err (List MigrationOperation) :=
  match alookup previous.tables k with
  | none => Except.error Err.panic
  | some t =>
    Except.ok [MigrationOperation.dropTable [catalog_name, current.name, k] t]

/-- One iteration of the created-tables loop, src/migrate/mod.rs lines
155-166. -/
def created_table_op (catalog_name : String) (previous current : Schema)
    (k : String) : Except Err (List MigrationOperation) :=
  match alookup current.tables k with
  | none => Except.error Err.panic
  | some t =>
    Except.ok [MigrationOperation.createTable [catalog_name, current.name, k] t]

/-- One iteration of the common-tables loop, src/migrate/mod.rs lines
168-179: recurse into the column diff only when the two table values are
not structurally equal. -/
def table_pair_ops (catalog_name : String) (previous current : Schema)
    (k : String) : Except Err (List MigrationOperation) :=
  match alookup previous.tables k, alookup current.tables k with
  | some previous_table, some current_table =>
    if previous_table ≠ current_table then
      gen_table [catalog_name, current.name] previous_table current_table
    else Except.ok []
  | _, _ => Except.error Err.panic

/-- MigrationGenerator::gen_tables, src/migrate/mod.rs lines 130-182. -/
def gen_tables (catalog_name : String) (previous current : Schema) :
    Except Err (List MigrationOperation) :=
  let previous_tables := akeys previous.tables
  let current_tables := akeys current.tables
  let dropped_tables := previous_tables.filter (fun k => decide (k ∉ current_tables))
  let created_tables := current_tables.filter (fun k => decide (k ∉ previous_tables))
  let common_tables := previous_tables.filter (fun k => decide (k ∈ current_tables))
  match foldExcept (dropped_table_op catalog_name previous current) dropped_tables with
  | Except.error e => Except.error e
  | Except.ok drop_ops =>
    match foldExcept (created_table_op catalog_name previous current) created_tables with
    | Except.error e => Except.error e
    | Except.ok create_ops =>
      match foldExcept (table_pair_ops catalog_name previous current) common_tables with
      | Except.error e => Except.error e
      | Except.ok common_ops => Except.ok (drop_ops ++ create_ops ++ common_ops)

/-- One iteration of the common-schemas loop, src/migrate/mod.rs lines
118-125: recurse into the table diff only when the two table maps are
unequal. -/
def schema_pair_ops (previous current : Catalog) (k : String) :
    Except Err (List MigrationOperation) :=
  match alookup previous.schemas k, alookup current.schemas k with
  | some previous_schema, some current_schema =>
    if previous_schema.tables ≠ current_schema.tables then
      gen_tables current.name previous_schema current_schema
    else Except.ok []
  | _, _ => Except.error Err.panic

/-- MigrationGenerator::gen_schemas, src/migrate/mod.rs lines 95-128.
Drop and Create schema operations are qualified with the name field of
the current catalog. -/
def gen_schemas (previous current : Catalog) :
    Except Err (List MigrationOperation) :=
  let previous_schemas := akeys previous.schemas
  let current_schemas := akeys current.schemas
  let dropped_schemas := previous_schemas.filter (fun k => decide (k ∉ current_schemas))
  let created_schemas := current_schemas.filter (fun k => decide (k ∉ previous_schemas))
  let common_schemas := previous_schemas.filter (fun k => decide (k ∈ current_schemas))
  match foldExcept (schema_pair_ops previous current) common_schemas with
  | Except.error e => Except.error e
  | Except.ok common_ops =>
    Except.ok
      (dropped_schemas.map (fun k => MigrationOperation.dropSchema [current.name, k])
        ++ created_schemas.map (fun k => MigrationOperation.createSchema [current.name, k])
        ++ common_ops)

/-- One iteration of the common-catalogs loop, src/migrate/mod.rs lines
83-90: recurse into the schema diff only when the two default-schema
names differ (the narrow trigger the spec flags in section 9). -/
def catalog_pair_ops (previous current : Dbinfo) (k : String) :
    Except Err (List MigrationOperation) :=
  match alookup previous.catalogs k, alookup current.catalogs k with
  | some previous_catalog, some current_catalog =>
    if previous_catalog.default_schema ≠ current_catalog.default_schema then
      gen_schemas previous_catalog current_catalog
    else Except.ok []
  | _, _ => Except.error Err.panic

/-- MigrationGenerator::gen_catalogs, src/migrate/mod.rs lines 56-93. -/
def gen_catalogs (previous current : Dbinfo) :
    Except Err (List MigrationOperation) :=
  let previous_catalogs := akeys previous.catalogs
  let current_catalogs := akeys current.catalogs
  let dropped_catalogs := previous_catalogs.filter (fun k => decide (k ∉ current_catalogs))
  let created_catalogs := current_catalogs.filter (fun k => decide (k ∉ previous_catalogs))
  let common_catalogs := previous_catalogs.filter (fun k => decide (k ∈ current_catalogs))
  match foldExcept (catalog_pair_ops previous current) common_catalogs with
  | Except.error e => Except.error e
  | Except.ok common_ops =>
    Except.ok
      (dropped_catalogs.map (fun k => MigrationOperation.dropDatabase k)
        ++ created_catalogs.map (fun k => MigrationOperation.createDatabase k)
        ++ common_ops)

/-- MigrationGenerator::generate, src/migrate/mod.rs lines 51-54: run the
catalog-level diff and return the accumulated operation list. -/
def generate (previous current : Dbinfo) :
    Except Err (List MigrationOperation) :=
  gen_catalogs previous current

/-! Concrete fixtures used to evaluate the engine at specific inputs. -/

/-- An INT column with the given name and no extras. -/
def intColumn (n : String) : Column :=
  { name := n, data_type := "INT", collation := none, options := [] }

/-- A table with the given name and columns and every attribute at its
plain default. -/
def plainTable (n : String) (cols : List Column) : Table :=
  { name := n, columns := cols, constraints := [], with_options := []
    without_rowid := false, engine := none, comment := none
    auto_increment_offset := none, default_charset := none, collation := none
    on_commit := none, order_by := none, partition_by := none, options := none
    strict := false }

/-- Table t with columns a, b. -/
def tableAB : Table := plainTable "t" [intColumn "a", intColumn "b"]

/-- Table t with columns a, x, b: an insertion in the middle. -/
def tableAXB : Table := plainTable "t" [intColumn "a", intColumn "x", intColumn "b"]

/-- Table t with columns x, a, b: an insertion at the front. -/
def tableXAB : Table := plainTable "t" [intColumn "x", intColumn "a", intColumn "b"]

/-- Table t with columns a, b, c. -/
def tableABC : Table := plainTable "t" [intColumn "a", intColumn "b", intColumn "c"]

/-- Table t with columns a, b, c, d: a pure tail append to tableABC. -/
def tableABCD : Table :=
  plainTable "t" [intColumn "a", intColumn "b", intColumn "c", intColumn "d"]

/-- A catalog named db whose default schema public holds the given
tables. -/
def dbCatalog (tables : List (String × Table)) : Catalog :=
  { name := "db", default_schema := "public"
    schemas := [("public", { name := "public", tables := tables })] }

/-- Snapshot with one catalog db whose schema public holds the given
tables. -/
def dbSnapshot (tables : List (String × Table)) : Dbinfo :=
  { dialect := Dialect.postgreSql, default_catalog := "db"
    catalogs := [("db", dbCatalog tables)] }

/-- Previous snapshot for the table-change probe: db.public holds t. -/
def dbPrevTableChange : Dbinfo := dbSnapshot [("t", tableAB)]

/-- Current snapshot for the table-change probe: db.public holds no
tables, while the default-schema name is unchanged. -/
def dbCurTableChange : Dbinfo := dbSnapshot []

/-- Previous snapshot for the created-schema probe: catalog db with only
the default schema public. -/
def dbPrevReporting : Dbinfo := dbSnapshot []

/-- Schema reporting holding table events. -/
def reportingSchema : Schema :=
  { name := "reporting"
    tables := [("events", plainTable "events" [intColumn "id"])] }

/-- The catalog of dbCurReporting: default schema public plus the extra
schema reporting. -/
def dbCatalogWithReporting : Catalog :=
  { name := "db", default_schema := "public"
    schemas := [("public", { name := "public", tables := [] }),
                ("reporting", reportingSchema)] }

/-- Current snapshot for the created-schema probe: catalog db additionally
holds schema reporting with table events; the default-schema name is
unchanged. -/
def dbCurReporting : Dbinfo :=
  { dialect := Dialect.postgreSql, default_catalog := "db"
    catalogs := [("db", dbCatalogWithReporting)] }

/-- A snapshot whose single catalog db has default schema s1 holding the
given table under key t; paired with defaultS2Snapshot it forces the
catalog recursion trigger (differing default-schema names) so that the
common schema s1 is actually diffed. -/
def defaultS1Snapshot (t : Table) : Dbinfo :=
  { dialect := Dialect.postgreSql, default_catalog := "db"
    catalogs := [("db",
      { name := "db", default_schema := "s1"
        schemas := [("s1", { name := "s1", tables := [("t", t)] })] })] }

/-- Like defaultS1Snapshot but with default-schema name s2 (s2 itself is
absent from the schema map, which only matters to default lookups the
diff never performs). -/
def defaultS2Snapshot (t : Table) : Dbinfo :=
  { dialect := Dialect.postgreSql, default_catalog := "db"
    catalogs := [("db",
      { name := "db", default_schema := "s2"
        schemas := [("s1", { name := "s1", tables := [("t", t)] })] })] }

/-! Claim theorems. -/

/-- C1.  The claim states that gen_catalogs recurses into the schema-level
diff whenever anything under a common catalog pair differs, so that a
table change under an unchanged default-schema name still produces
operations.  The code (src/migrate/mod.rs line 87) recurses only when the
default-schema names differ: here the previous snapshot has table t in
db.public and the current snapshot has dropped it, yet generate returns
an empty migration, emitting no DropTable. -/
theorem gen_catalogs_skips_table_changes :
    generate dbPrevTableChange dbCurTableChange = Except.ok []
      ∧ dbPrevTableChange.catalogs ≠ dbCurTableChange.catalogs := by
  constructor
  · rfl
  · decide

/-- C2.  The claim states that diffing a snapshot without schema
reporting against one with reporting.events yields CreateSchema then
CreateTable.  The code returns an empty migration: the catalog pair's
default-schema names are equal, so gen_catalogs (src/migrate/mod.rs line
87) never recurses into gen_schemas; moreover gen_schemas would emit only
CreateSchema for a created schema, never CreateTable for the tables
inside it (lines 110-116 push CreateSchema only, and recursion happens
for common schemas only). -/
theorem generate_missing_created_schema_ops :
    generate dbPrevReporting dbCurReporting = Except.ok []
      ∧ alookup dbCurReporting.catalogs "db" = some dbCatalogWithReporting
      ∧ alookup dbCatalogWithReporting.schemas "reporting" = some reportingSchema
      ∧ alookup (dbCatalog []).schemas "reporting" = none := by
  refine ⟨?_, ?_, ?_, ?_⟩
  · rfl
  · decide
  · decide
  · decide

/-- C3.  The claim states that a pure tail append (previous columns
a, b, c; current a, b, c, d) succeeds with one AddColumn and one
AlterColumn per kept column.  The code cannot succeed: the emission loop
dispatches the first Kept column to gen_alter_column, whose body is
todo!() (src/migrate/mod.rs line 263), a panic (gen_add_column, line 281,
is equally unimplemented); the same failure is reached end-to-end through
generate on snapshots whose catalog trigger fires. -/
theorem generate_tail_append_panics :
    gen_table ["db", "public"] tableABC tableABCD = Except.error Err.todo
      ∧ generate (defaultS1Snapshot tableABC) (defaultS2Snapshot tableABCD)
          = Except.error Err.todo := by
  constructor
  · rfl
  · rfl

/-! Properties of the legality scan. -/

/-- Once the first-added tracker is set it is never changed. -/
theorem scanDiff_fst_frozen (d : List DiffItem) :
    ∀ (idx w : Nat) (lc : Option Nat),
      (scanDiff d idx (some w) lc).1 = some w := by
  induction d with
  | nil => intro idx w lc; rfl
  | cons hd tl ih =>
    intro idx w lc
    cases hd with
    | left a => simpa [scanDiff] using ih (idx + 1) w lc
    | both a b => simpa [scanDiff] using ih (idx + 1) w (some idx)
    | right b => simpa [scanDiff] using ih (idx + 1) w lc

/-- A set last-common tracker stays set, and can only move forward. -/
theorem scanDiff_snd_set (d : List DiffItem) :
    ∀ (idx w : Nat) (fa : Option Nat), w ≤ idx →
      ∃ v, (scanDiff d idx fa (some w)).2 = some v ∧ w ≤ v := by
  induction d with
  | nil => intro idx w fa _; exact ⟨w, rfl, le_refl w⟩
  | cons hd tl ih =>
    intro idx w fa hw
    cases hd with
    | left a =>
      obtain ⟨v, hv, hle⟩ := ih (idx + 1) w fa (by omega)
      exact ⟨v, by simpa [scanDiff] using hv, hle⟩
    | both a b =>
      obtain ⟨v, hv, hle⟩ := ih (idx + 1) idx fa (by omega)
      exact ⟨v, by simpa [scanDiff] using hv, by omega⟩
    | right b =>
      obtain ⟨v, hv, hle⟩ :=
        ih (idx + 1) w (match fa with | none => some idx | some u => some u) (by omega)
      exact ⟨v, by simpa [scanDiff] using hv, hle⟩

/-- If the alignment holds a Right (added) item at index i, the scan ends
with a first-added tracker at most i (offset by the running index), or
equal to an initially set tracker. -/
theorem scanDiff_first_added {d : List DiffItem} {i : Nat} {x : String}
    (h : d.get? i = some (DiffItem.right x)) :
    ∀ (idx : Nat) (fa lc : Option Nat),
      ∃ v, (scanDiff d idx fa lc).1 = some v ∧ (v ≤ idx + i ∨ fa = some v) := by
  induction d generalizing i with
  | nil => simp at h
  | cons hd tl ih =>
    intro idx fa lc
    cases hd with
    | left a =>
      cases i with
      | zero => simp at h
      | succ i2 =>
        have h2 : tl.get? i2 = some (DiffItem.right x) := by simpa using h
        obtain ⟨v, hv, hle⟩ := ih h2 (idx + 1) fa lc
        refine ⟨v, by simpa [scanDiff] using hv, ?_⟩
        rcases hle with h3 | h3
        · left; omega
        · right; exact h3
    | both a b =>
      cases i with
      | zero => simp at h
      | succ i2 =>
        have h2 : tl.get? i2 = some (DiffItem.right x) := by simpa using h
        obtain ⟨v, hv, hle⟩ := ih h2 (idx + 1) fa (some idx)
        refine ⟨v, by simpa [scanDiff] using hv, ?_⟩
        rcases hle with h3 | h3
        · left; omega
        · right; exact h3
    | right b =>
      cases fa with
      | none =>
        refine ⟨idx, ?_, Or.inl (by omega)⟩
        simpa [scanDiff] using scanDiff_fst_frozen tl (idx + 1) idx lc
      | some w =>
        refine ⟨w, ?_, Or.inr rfl⟩
        simpa [scanDiff] using scanDiff_fst_frozen tl (idx + 1) w lc

/-- If the alignment holds a Both (kept) item at index j, the scan ends
with a last-common tracker of at least j (offset by the running index). -/
theorem scanDiff_last_common {d : List DiffItem} {j : Nat} {a b : String}
    (h : d.get? j = some (DiffItem.both a b)) :
    ∀ (idx : Nat) (fa lc : Option Nat),
      ∃ v, (scanDiff d idx fa lc).2 = some v ∧ idx + j ≤ v := by
  induction d generalizing j with
  | nil => simp at h
  | cons hd tl ih =>
    intro idx fa lc
    cases hd with
    | left a2 =>
      cases j with
      | zero => simp at h
      | succ j2 =>
        have h2 : tl.get? j2 = some (DiffItem.both a b) := by simpa using h
        obtain ⟨v, hv, hle⟩ := ih h2 (idx + 1) fa lc
        exact ⟨v, by simpa [scanDiff] using hv, by omega⟩
    | right b2 =>
      cases j with
      | zero => simp at h
      | succ j2 =>
        have h2 : tl.get? j2 = some (DiffItem.both a b) := by simpa using h
        obtain ⟨v, hv, hle⟩ :=
          ih h2 (idx + 1) (match fa with | none => some idx | some u => some u) lc
        exact ⟨v, by simpa [scanDiff] using hv, by omega⟩
    | both a2 b2 =>
      cases j with
      | zero =>
        obtain ⟨v, hv, hle⟩ := scanDiff_snd_set tl (idx + 1) idx fa (by omega)
        exact ⟨v, by simpa [scanDiff] using hv, by omega⟩
      | succ j2 =>
        have h2 : tl.get? j2 = some (DiffItem.both a b) := by simpa using h
        obtain ⟨v, hv, hle⟩ := ih h2 (idx + 1) fa (some idx)
        exact ⟨v, by simpa [scanDiff] using hv, by omega⟩

/-- C4.  Whenever the LCS alignment of the column names of a common table
pair places an Added column at an index preceding the index of some Kept
column, gen_table fails with the unsupported-diff error (src/migrate/
mod.rs lines 196-219), returning no operations for the table; in
particular previous columns a, b against current a, x, b and against
x, a, b are rejected, while the pure tail append a, b, c to a, b, c, d is
not rejected by this check, and the rejection propagates through generate
as the failure of the whole run. -/
theorem gen_table_mid_insert_rejected :
    (∀ (schema_name : List String) (previous current : Table)
       (i j : Nat) (x a b : String),
       i < j →
       (diffSlice (previous.columns.map (fun c => c.name))
         (current.columns.map (fun c => c.name))).get? i
           = some (DiffItem.right x) →
       (diffSlice (previous.columns.map (fun c => c.name))
         (current.columns.map (fun c => c.name))).get? j
           = some (DiffItem.both a b) →
       gen_table schema_name previous current = Except.error Err.unsupportedDiff)
    ∧ gen_table ["db", "public"] tableAB tableAXB = Except.error Err.unsupportedDiff
    ∧ gen_table ["db", "public"] tableAB tableXAB = Except.error Err.unsupportedDiff
    ∧ gen_table ["db", "public"] tableABC tableABCD ≠ Except.error Err.unsupportedDiff
    ∧ generate (defaultS1Snapshot tableAB) (defaultS2Snapshot tableAXB)
        = Except.error Err.unsupportedDiff := by
  refine ⟨?_, rfl, rfl, ?_, rfl⟩
  case refine_2 =>
    rw [show gen_table ["db", "public"] tableABC tableABCD
        = Except.error Err.todo from rfl]
    simp
  intro schema_name previous current i j x a b hij hi hj
  obtain ⟨v1, hv1, hle1⟩ := scanDiff_first_added hi 0 none none
  obtain ⟨v2, hv2, hle2⟩ := scanDiff_last_common hj 0 none none
  have hv1i : v1 ≤ i := by
    rcases hle1 with h3 | h3
    · omega
    · cases h3
  have hlt : v1 < v2 := by omega
  have hpair : scanDiff
      (diffSlice (previous.columns.map (fun c => c.name))
        (current.columns.map (fun c => c.name))) 0 none none
      = (some v1, some v2) := by
    rw [← hv1, ← hv2]
  simp only [gen_table, hpair]
  rw [if_pos hlt]

/-- C4 witness: the mid-table rejection theorem applied to the concrete
alignment of columns a, b against a, x, b, whose Added item at index 1
precedes the Kept item at index 2. -/
theorem gen_table_mid_insert_rejected_witness :
    (1 : Nat) < 2
      ∧ gen_table ["db", "public"] tableAB tableAXB
          = Except.error Err.unsupportedDiff :=
  ⟨by omega,
    gen_table_mid_insert_rejected.1 ["db", "public"] tableAB tableAXB
      1 2 "x" "b" "b" (by omega) rfl rfl⟩

/-! The no-op diff. -/

/-- A key list filtered by non-membership in itself is empty: the dropped
and created key sets of a self-diff are empty. -/
theorem filter_not_mem_self (l : List String) :
    l.filter (fun k => decide (k ∉ l)) = [] := by
  apply List.filter_eq_nil_iff.mpr
  intro a ha
  simp [ha]

/-- When every loop body emits nothing and succeeds, the whole loop
succeeds emitting nothing. -/
theorem foldExcept_ok_all {f : String → Except Err (List MigrationOperation)}
    {ks : List String} (h : ∀ k ∈ ks, f k = Except.ok []) :
    foldExcept f ks = Except.ok [] := by
  induction ks with
  | nil => rfl
  | cons k rest ih =>
    have hrest : foldExcept f rest = Except.ok [] :=
      ih (fun k2 hk2 => h k2 (by simp [hk2]))
    simp [foldExcept, h k (by simp), hrest]

/-- C5.  Diffing any snapshot against itself succeeds with an empty
operation list: the dropped and created catalog key sets are empty, and
every common catalog pair compares a catalog with itself, so the
default-schema recursion trigger (src/migrate/mod.rs line 87) is false
and nothing is emitted. -/
theorem generate_self_empty (S : Dbinfo) : generate S S = Except.ok [] := by
  have hdrop := filter_not_mem_self (akeys S.catalogs)
  have hcommon : foldExcept (catalog_pair_ops S S)
      ((akeys S.catalogs).filter (fun k => decide (k ∈ akeys S.catalogs)))
      = Except.ok [] := by
    apply foldExcept_ok_all
    intro k hk
    have hk2 : k ∈ akeys S.catalogs := (List.mem_filter.mp hk).1
    obtain ⟨c, hc⟩ :=
      Option.isSome_iff_exists.mp (alookup_isSome_of_mem_akeys hk2)
    simp [catalog_pair_ops, hc]
  simp [generate, gen_catalogs, hdrop, hcommon]

/-- C6.  The dialect-total name policy of inspect_table_name
(src/inspector/mod.rs lines 285-322): one part always succeeds bare; two
parts resolve as (schema, table) under PostgreSQL and (catalog, table)
under MySQL and fail under SQLite; three parts succeed fully qualified
under PostgreSQL only; zero or more than three parts fail under every
dialect. -/
theorem inspect_table_name_policy :
    (∀ (d : Dialect) (t : Ident),
       inspect_table_name d [t]
         = Except.ok { catalog := none, schema := none, table := t })
    ∧ (∀ (s t : Ident),
       inspect_table_name Dialect.postgreSql [s, t]
         = Except.ok { catalog := none, schema := some s, table := t })
    ∧ (∀ (c t : Ident),
       inspect_table_name Dialect.mySql [c, t]
         = Except.ok { catalog := some c, schema := none, table := t })
    ∧ (∀ (a t : Ident),
       inspect_table_name Dialect.sqlite [a, t] = Except.error Err.invalidName)
    ∧ (∀ (c s t : Ident),
       inspect_table_name Dialect.postgreSql [c, s, t]
         = Except.ok { catalog := some c, schema := some s, table := t })
    ∧ (∀ (c s t : Ident),
       inspect_table_name Dialect.mySql [c, s, t] = Except.error Err.invalidName)
    ∧ (∀ (c s t : Ident),
       inspect_table_name Dialect.sqlite [c, s, t] = Except.error Err.invalidName)
    ∧ (∀ (d : Dialect), inspect_table_name d [] = Except.error Err.invalidName)
    ∧ (∀ (d : Dialect) (parts : List Ident), 3 < parts.length →
       inspect_table_name d parts = Except.error Err.invalidName) := by
  refine ⟨fun d t => rfl, fun s t => rfl, fun c t => rfl, fun a t => rfl,
    fun c s t => rfl, fun c s t => rfl, fun c s t => rfl, fun d => rfl, ?_⟩
  intro d parts h
  rcases parts with _ | ⟨a, parts⟩
  · simp at h
  rcases parts with _ | ⟨b, parts⟩
  · simp at h
  rcases parts with _ | ⟨c, parts⟩
  · simp at h
  rcases parts with _ | ⟨e, parts⟩
  · simp at h
  rfl

/-- C6 witness: the over-long-name conjunct applied to a concrete
four-part identifier. -/
theorem inspect_table_name_policy_witness :
    3 < ([⟨"a"⟩, ⟨"b"⟩, ⟨"c"⟩, ⟨"d"⟩] : List Ident).length
      ∧ inspect_table_name Dialect.postgreSql
          [⟨"a"⟩, ⟨"b"⟩, ⟨"c"⟩, ⟨"d"⟩] = Except.error Err.invalidName :=
  ⟨by decide,
    inspect_table_name_policy.2.2.2.2.2.2.2.2 Dialect.postgreSql
      [⟨"a"⟩, ⟨"b"⟩, ⟨"c"⟩, ⟨"d"⟩] (by decide)⟩

/-! The add_table resolution policy. -/

/-- Decidable form of the model invariants of spec section 3: the default
catalog key exists, and every catalog's default-schema key exists. -/
def dbDefaultsOK (db : Dbinfo) : Bool :=
  (alookup db.catalogs db.default_catalog).isSome
    && db.catalogs.all (fun p => (alookup p.2.schemas p.2.default_schema).isSome)

/-- The owning catalog chosen by add_table/get_table: the explicit
qualifier when present, else the model's default catalog. -/
def resolve_catalog (db : Dbinfo) (name : TableName) :
    Option (String × Catalog) :=
  match name.catalog with
  | some cn => (alookup db.catalogs cn.value).map (fun c => (cn.value, c))
  | none => (alookup db.catalogs db.default_catalog).map
      (fun c => (db.default_catalog, c))

/-- The owning schema chosen by add_table/get_table inside the resolved
catalog: the explicit qualifier when present, else that catalog's default
schema. -/
def resolve_schema (cat : Catalog) (name : TableName) :
    Option (String × Schema) :=
  match name.schema with
  | some sn => (alookup cat.schemas sn.value).map (fun s => (sn.value, s))
  | none => (alookup cat.schemas cat.default_schema).map
      (fun s => (cat.default_schema, s))

/-- The model after a successful add_table: the table inserted keyed by
its simple name, written back through the resolved schema and catalog
keys. -/
def add_table_result (db : Dbinfo) (name : TableName) (t : Table)
    (ckey : String) (cat : Catalog) (skey : String) (sch : Schema) : Dbinfo :=
  let sch2 : Schema := { sch with tables := ainsert sch.tables name.table.value t }
  let cat2 : Catalog := { cat with schemas := ainsert cat.schemas skey sch2 }
  { db with catalogs := ainsert db.catalogs ckey cat2 }

/-- Inversion of a successful catalog resolution: the resolved pair is a
real binding of the catalogs map, reached through the explicit qualifier
or through the default catalog. -/
theorem resolve_catalog_some {db : Dbinfo} {name : TableName} {ckey : String}
    {cat : Catalog} (h : resolve_catalog db name = some (ckey, cat)) :
    alookup db.catalogs ckey = some cat
      ∧ ((∃ cn, name.catalog = some cn ∧ cn.value = ckey)
         ∨ (name.catalog = none ∧ ckey = db.default_catalog)) := by
  cases hc : name.catalog with
  | some cn =>
    simp only [resolve_catalog, hc] at h
    cases hl : alookup db.catalogs cn.value with
    | none => rw [hl] at h; simp at h
    | some cat0 =>
      rw [hl] at h
      simp only [Option.map_some', Option.some.injEq, Prod.mk.injEq] at h
      obtain ⟨h1, h2⟩ := h
      subst h1; subst h2
      exact ⟨hl, Or.inl ⟨cn, rfl, rfl⟩⟩
  | none =>
    simp only [resolve_catalog, hc] at h
    cases hl : alookup db.catalogs db.default_catalog with
    | none => rw [hl] at h; simp at h
    | some cat0 =>
      rw [hl] at h
      simp only [Option.map_some', Option.some.injEq, Prod.mk.injEq] at h
      obtain ⟨h1, h2⟩ := h
      subst h1; subst h2
      exact ⟨hl, Or.inr ⟨rfl, rfl⟩⟩

/-- Inversion of a successful schema resolution inside a catalog. -/
theorem resolve_schema_some {cat : Catalog} {name : TableName} {skey : String}
    {sch : Schema} (h : resolve_schema cat name = some (skey, sch)) :
    alookup cat.schemas skey = some sch
      ∧ ((∃ sn, name.schema = some sn ∧ sn.value = skey)
         ∨ (name.schema = none ∧ skey = cat.default_schema)) := by
  cases hs : name.schema with
  | some sn =>
    simp only [resolve_schema, hs] at h
    cases hl : alookup cat.schemas sn.value with
    | none => rw [hl] at h; simp at h
    | some sch0 =>
      rw [hl] at h
      simp only [Option.map_some', Option.some.injEq, Prod.mk.injEq] at h
      obtain ⟨h1, h2⟩ := h
      subst h1; subst h2
      exact ⟨hl, Or.inl ⟨sn, rfl, rfl⟩⟩
  | none =>
    simp only [resolve_schema, hs] at h
    cases hl : alookup cat.schemas cat.default_schema with
    | none => rw [hl] at h; simp at h
    | some sch0 =>
      rw [hl] at h
      simp only [Option.map_some', Option.some.injEq, Prod.mk.injEq] at h
      obtain ⟨h1, h2⟩ := h
      subst h1; subst h2
      exact ⟨hl, Or.inr ⟨rfl, rfl⟩⟩

/-- When both resolutions succeed, add_table succeeds with the insertion
at the resolved keys. -/
theorem add_table_resolved (db : Dbinfo) (name : TableName) (t : Table)
    (ckey : String) (cat : Catalog) (skey : String) (sch : Schema)
    (h1 : resolve_catalog db name = some (ckey, cat))
    (h2 : resolve_schema cat name = some (skey, sch)) :
    db.add_table name t
      = Except.ok (add_table_result db name t ckey cat skey sch) := by
  obtain ⟨hcl, hcq⟩ := resolve_catalog_some h1
  obtain ⟨hsl, hsq⟩ := resolve_schema_some h2
  rcases hcq with ⟨cn, hc, hcv⟩ | ⟨hc, hcv⟩ <;>
    rcases hsq with ⟨sn, hs, hsv⟩ | ⟨hs, hsv⟩ <;>
      subst hcv <;> subst hsv <;>
        simp [Dbinfo.add_table, hc, hs, hcl, hsl, add_table_result]

/-- C7 (amended with the spec section-3 model invariants as hypothesis).
On a model whose default catalog and per-catalog default schemas exist,
add_table fails with NotFound exactly when an explicitly named catalog or
schema is absent (never falling back to a default in that case), and
otherwise resolves missing qualifiers to the default catalog and that
catalog's default schema and inserts or replaces the table keyed by its
simple name; under the invariants the default resolutions always
succeed. -/
theorem add_table_policy (db : Dbinfo) (name : TableName) (t : Table)
    (hdef : dbDefaultsOK db = true) :
    (∀ cn, name.catalog = some cn → alookup db.catalogs cn.value = none →
       db.add_table name t = Except.error (Err.notFound "catalog"))
    ∧ (∀ ckey cat sn, resolve_catalog db name = some (ckey, cat) →
       name.schema = some sn → alookup cat.schemas sn.value = none →
       db.add_table name t = Except.error (Err.notFound "schema"))
    ∧ (∀ ckey cat skey sch, resolve_catalog db name = some (ckey, cat) →
       resolve_schema cat name = some (skey, sch) →
       db.add_table name t
         = Except.ok (add_table_result db name t ckey cat skey sch))
    ∧ (name.catalog = none → (resolve_catalog db name).isSome)
    ∧ (∀ ckey cat, resolve_catalog db name = some (ckey, cat) →
       name.schema = none → (resolve_schema cat name).isSome) := by
  simp only [dbDefaultsOK, Bool.and_eq_true, List.all_eq_true] at hdef
  obtain ⟨hdc, hds⟩ := hdef
  refine ⟨?_, ?_, ?_, ?_, ?_⟩
  · intro cn hcn hlook
    simp [Dbinfo.add_table, hcn, hlook]
  · intro ckey cat sn hres hsn hlook
    obtain ⟨hcl, hcq⟩ := resolve_catalog_some hres
    rcases hcq with ⟨cn, hc, hcv⟩ | ⟨hc, hcv⟩ <;> subst hcv <;>
      simp [Dbinfo.add_table, hc, hcl, hsn, hlook]
  · intro ckey cat skey sch h1 h2
    exact add_table_resolved db name t ckey cat skey sch h1 h2
  · intro hc
    simp only [resolve_catalog, hc]
    obtain ⟨c, hcv⟩ := Option.isSome_iff_exists.mp hdc
    simp [hcv]
  · intro ckey cat hres hs
    obtain ⟨hcl, _⟩ := resolve_catalog_some hres
    have hd := hds (ckey, cat) (mem_of_alookup_eq_some hcl)
    simp only [resolve_schema, hs]
    obtain ⟨s, hsv⟩ := Option.isSome_iff_exists.mp hd
    simp [hsv]

/-- C7 counterexample: on a Dbinfo whose catalogs map lacks its default
catalog, add_table with a fully unqualified name panics (the unwrap in
default_catalog_mut, src/dbinfo/mod.rs line 40) instead of failing with
NotFound or inserting into a default, so the claim quantified over every
Dbinfo is false. -/
theorem add_table_missing_default_panics :
    Dbinfo.add_table
      { dialect := Dialect.postgreSql, default_catalog := "main", catalogs := [] }
      { catalog := none, schema := none, table := ⟨"t"⟩ } tableAB
      = Except.error Err.panic := rfl

/-- The model used by the add_table and inspector witnesses. -/
def mainDb : Dbinfo :=
  Dbinfo.with_options
    { dialect := Dialect.postgreSql, database := "main", default_schema := "public" }

/-- C7 witness: the policy applied to the invariant-satisfying fresh
model and an explicitly named absent catalog. -/
theorem add_table_policy_witness :
    dbDefaultsOK mainDb = true
      ∧ Dbinfo.add_table mainDb
          { catalog := some ⟨"ghost"⟩, schema := none, table := ⟨"t"⟩ } tableAB
          = Except.error (Err.notFound "catalog") :=
  ⟨by decide,
    (add_table_policy mainDb
      { catalog := some ⟨"ghost"⟩, schema := none, table := ⟨"t"⟩ } tableAB
      (by decide)).1 ⟨"ghost"⟩ rfl (by decide)⟩

/-- Boolean success test for the modelled fallible operations. -/
def isOkE {α : Type} : Except Err α → Bool
  | Except.ok _ => true
  | Except.error _ => false

/-- C9.  The CreateTable arm of inspect_stmt discards the Result of
Dbinfo::add_table (src/inspector/mod.rs line 225 calls it without ? or
unwrap): whenever every unsupported-construct gate passes, the name
resolves, the columns convert and there is no LIKE clause, any add_table
failure — in particular the NotFound for an explicitly qualified catalog
or schema absent from the model — is swallowed: the statement returns Ok
and the model is unchanged, so the table is silently not added. -/
theorem inspect_create_table_discards_add_table_error
    (db : Dbinfo) (s : CreateTableStmt) (table_name : TableName)
    (cols : List Column) (e : Err)
    (h1 : s.temporary = false) (h2 : s.external = false)
    (h3 : s.transient = false) (h4 : s.table_properties = [])
    (h5 : s.file_format = none) (h6 : s.location = none)
    (h7 : s.query = none) (h8 : s.clone = none)
    (h9 : s.on_cluster = none) (h10 : s.cluster_by = none)
    (hname : inspect_table_name db.dialect s.name = Except.ok table_name)
    (hcols : inspect_columns s.columns = Except.ok cols)
    (hlike : s.like = none)
    (hadd : db.add_table table_name (stmt_table s table_name cols)
       = Except.error e) :
    inspect_create_table db s = Except.ok db := by
  simp [inspect_create_table, h1, h2, h3, h4, h5, h6, h7, h8, h9, h10,
    hname, hcols, hlike, hadd]

/-- A CREATE TABLE statement naming the absent schema nope explicitly,
with no unsupported constructs. -/
def ghostSchemaStmt : CreateTableStmt :=
  { temporary := false, external := false, transient := false
    name := [⟨"nope"⟩, ⟨"t"⟩], columns := [], constraints := []
    table_properties := [], with_options := [], file_format := none
    location := none, query := none, without_rowid := false, like := none
    clone := none, engine := none, comment := none
    auto_increment_offset := none, default_charset := none
    collation := none, on_commit := none, on_cluster := none
    order_by := none, partition_by := none, cluster_by := none
    options := none, strict := false }

/-- C9 witness: on the fresh PostgreSQL model, CREATE TABLE nope.t names
an absent schema; add_table fails with NotFound, yet the statement
succeeds and leaves the model untouched. -/
theorem inspect_create_table_discards_add_table_error_witness :
    inspect_create_table mainDb ghostSchemaStmt = Except.ok mainDb :=
  inspect_create_table_discards_add_table_error mainDb ghostSchemaStmt
    { catalog := none, schema := some ⟨"nope"⟩, table := ⟨"t"⟩ }
    [] (Err.notFound "schema")
    rfl rfl rfl rfl rfl rfl rfl rfl rfl rfl rfl rfl rfl rfl

/-- C10.  with_options establishes the default-lookup invariants the
unwraps rely on: the fresh model's catalogs map holds the
default-catalog key and that catalog's schemas map holds its
default-schema key (the dbDefaultsOK invariant), so fully unqualified
get_table and add_table on a fresh model never take a missing-default
panic path: the lookup of an absent table fails with the table NotFound
error and an insertion succeeds. -/
theorem with_options_default_invariants (o : Options) (t : Ident) (tbl : Table) :
    dbDefaultsOK (Dbinfo.with_options o) = true
    ∧ ((alookup (Dbinfo.with_options o).catalogs
          (Dbinfo.with_options o).default_catalog).bind
        (fun cat => alookup cat.schemas cat.default_schema)).isSome
    ∧ Dbinfo.get_table (Dbinfo.with_options o)
        { catalog := none, schema := none, table := t }
        = Except.error (Err.notFound "table")
    ∧ isOkE (Dbinfo.add_table (Dbinfo.with_options o)
        { catalog := none, schema := none, table := t } tbl) = true := by
  refine ⟨?_, ?_, ?_, ?_⟩
  · simp [dbDefaultsOK, Dbinfo.with_options, alookup]
  · simp [Dbinfo.with_options, alookup]
  · simp [Dbinfo.get_table, Dbinfo.with_options, Schema.get_table, alookup]
  · simp [Dbinfo.add_table, Dbinfo.with_options, alookup, isOkE]

/-! Create/drop correspondence between the two diff directions. -/

/-- The granularity of a create or drop operation. -/
inductive ObjKind where
  | database
  | schema
  | table
deriving DecidableEq, Repr

/-- The qualified name created by an operation, when it is a create. -/
def createdObj : MigrationOperation → Option (ObjKind × List String)
  | MigrationOperation.createDatabase n => some (ObjKind.database, [n])
  | MigrationOperation.createSchema n => some (ObjKind.schema, n)
  | MigrationOperation.createTable n _ => some (ObjKind.table, n)
  | _ => none

/-- The qualified name dropped by an operation, when it is a drop. -/
def droppedObj : MigrationOperation → Option (ObjKind × List String)
  | MigrationOperation.dropDatabase n => some (ObjKind.database, [n])
  | MigrationOperation.dropSchema n => some (ObjKind.schema, n)
  | MigrationOperation.dropTable n _ => some (ObjKind.table, n)
  | _ => none

/-- Well-formedness of one catalog binding: the catalog's name field is
its map key and every schema's name field is its map key.  This holds for
every model built through with_options and add_table. -/
def catalogWF (k : String) (c : Catalog) : Bool :=
  decide (c.name = k) && c.schemas.all (fun p => decide (p.2.name = p.1))

/-- Well-formedness of a snapshot: every catalog binding is well-formed. -/
def dbWF (db : Dbinfo) : Bool :=
  db.catalogs.all (fun p => catalogWF p.1 p.2)

/-- The operation list of a diff result, empty on failure. -/
def opsOf (r : Except Err (List MigrationOperation)) :
    List MigrationOperation :=
  match r with
  | Except.ok l => l
  | Except.error _ => []

theorem dbWF_lookup {db : Dbinfo} {k : String} {cat : Catalog}
    (hw : dbWF db = true) (h : alookup db.catalogs k = some cat) :
    cat.name = k ∧ ∀ sk s, alookup cat.schemas sk = some s → s.name = sk := by
  simp only [dbWF, List.all_eq_true] at hw
  have hc := hw (k, cat) (mem_of_alookup_eq_some h)
  simp only [catalogWF, Bool.and_eq_true, decide_eq_true_eq,
    List.all_eq_true] at hc
  obtain ⟨h1, h2⟩ := hc
  refine ⟨h1, fun sk s hs => ?_⟩
  have := h2 (sk, s) (mem_of_alookup_eq_some hs)
  simpa using this

/-! Generic facts about the operation-accumulating loops. -/

theorem foldExcept_mem_filterMap {f : String → Except Err (List MigrationOperation)}
    {ks : List String} {o : List MigrationOperation}
    (h : foldExcept f ks = Except.ok o)
    (g : MigrationOperation → Option (ObjKind × List String))
    (x : ObjKind × List String) :
    x ∈ o.filterMap g
      ↔ ∃ k, k ∈ ks ∧ ∃ w, f k = Except.ok w ∧ x ∈ w.filterMap g := by
  induction ks generalizing o with
  | nil =>
    simp only [foldExcept, Except.ok.injEq] at h
    subst h
    simp
  | cons k rest ih =>
    simp only [foldExcept] at h
    cases hk : f k with
    | error e => rw [hk] at h; cases h
    | ok w =>
      rw [hk] at h
      cases hrest : foldExcept f rest with
      | error e => rw [hrest] at h; cases h
      | ok more =>
        rw [hrest] at h
        cases h
        simp only [List.filterMap_append, List.mem_append, ih hrest]
        constructor
        · rintro (hx | ⟨k2, hk2, w2, hw2, hx⟩)
          · exact ⟨k, by simp, w, hk, hx⟩
          · exact ⟨k2, by simp [hk2], w2, hw2, hx⟩
        · rintro ⟨k2, hk2, w2, hw2, hx⟩
          rcases List.mem_cons.mp hk2 with rfl | hk2
          · rw [hk] at hw2
            cases hw2
            exact Or.inl hx
          · exact Or.inr ⟨k2, hk2, w2, hw2, hx⟩

theorem foldExcept_ok_of_mem {f : String → Except Err (List MigrationOperation)}
    {ks : List String} {o : List MigrationOperation} {k : String}
    (h : foldExcept f ks = Except.ok o) (hk : k ∈ ks) :
    ∃ w, f k = Except.ok w := by
  induction ks generalizing o with
  | nil => simp at hk
  | cons k2 rest ih =>
    simp only [foldExcept] at h
    cases hk2 : f k2 with
    | error e => rw [hk2] at h; cases h
    | ok w =>
      rw [hk2] at h
      cases hrest : foldExcept f rest with
      | error e => rw [hrest] at h; cases h
      | ok more =>
        rcases List.mem_cons.mp hk with rfl | hk3
        · exact ⟨w, hk2⟩
        · exact ih hrest hk3

theorem foldExcept_ok_nil_of {f : String → Except Err (List MigrationOperation)}
    {ks : List String} {o : List MigrationOperation}
    (h : foldExcept f ks = Except.ok o)
    (hall : ∀ k, k ∈ ks → ∀ w, f k = Except.ok w → w = []) : o = [] := by
  induction ks generalizing o with
  | nil => simp only [foldExcept, Except.ok.injEq] at h; exact h.symm
  | cons k rest ih =>
    simp only [foldExcept] at h
    cases hk : f k with
    | error e => rw [hk] at h; cases h
    | ok w =>
      rw [hk] at h
      cases hrest : foldExcept f rest with
      | error e => rw [hrest] at h; cases h
      | ok more =>
        rw [hrest] at h
        cases h
        have hw : w = [] := hall k (by simp) w hk
        have hm : more = [] :=
          ih hrest (fun k2 hk2 w2 hw2 => hall k2 (by simp [hk2]) w2 hw2)
        simp [hw, hm]

theorem foldExcept_filterMap_nil {f : String → Except Err (List MigrationOperation)}
    {ks : List String} {o : List MigrationOperation}
    {g : MigrationOperation → Option (ObjKind × List String)}
    (h : foldExcept f ks = Except.ok o)
    (hall : ∀ k, k ∈ ks → ∀ w, f k = Except.ok w → w.filterMap g = []) :
    o.filterMap g = [] := by
  induction ks generalizing o with
  | nil => simp only [foldExcept, Except.ok.injEq] at h; simp [← h]
  | cons k rest ih =>
    simp only [foldExcept] at h
    cases hk : f k with
    | error e => rw [hk] at h; cases h
    | ok w =>
      rw [hk] at h
      cases hrest : foldExcept f rest with
      | error e => rw [hrest] at h; cases h
      | ok more =>
        rw [hrest] at h
        cases h
        rw [List.filterMap_append, hall k (by simp) w hk,
          ih hrest (fun k2 hk2 w2 hw2 => hall k2 (by simp [hk2]) w2 hw2)]
        rfl

theorem foldExcept_filterMap_map {f : String → Except Err (List MigrationOperation)}
    {ks : List String} {o : List MigrationOperation}
    {g : MigrationOperation → Option (ObjKind × List String)}
    {h2 : String → ObjKind × List String}
    (h : foldExcept f ks = Except.ok o)
    (hall : ∀ k, k ∈ ks → ∀ w, f k = Except.ok w → w.filterMap g = [h2 k]) :
    o.filterMap g = ks.map h2 := by
  induction ks generalizing o with
  | nil => simp only [foldExcept, Except.ok.injEq] at h; simp [← h]
  | cons k rest ih =>
    simp only [foldExcept] at h
    cases hk : f k with
    | error e => rw [hk] at h; cases h
    | ok w =>
      rw [hk] at h
      cases hrest : foldExcept f rest with
      | error e => rw [hrest] at h; cases h
      | ok more =>
        rw [hrest] at h
        cases h
        rw [List.filterMap_append, hall k (by simp) w hk,
          ih hrest (fun k2 hk2 w2 hw2 => hall k2 (by simp [hk2]) w2 hw2)]
        rfl

theorem foldExcept_mem_transfer
    {f1 f2 : String → Except Err (List MigrationOperation)}
    {ks1 ks2 : List String} {m1 m2 : List MigrationOperation}
    {g1 g2 : MigrationOperation → Option (ObjKind × List String)}
    (hf1 : foldExcept f1 ks1 = Except.ok m1)
    (hf2 : foldExcept f2 ks2 = Except.ok m2)
    (hks : ∀ k, k ∈ ks1 ↔ k ∈ ks2)
    (hcross : ∀ k w1 w2, k ∈ ks1 → f1 k = Except.ok w1 →
        f2 k = Except.ok w2 →
        ∀ y, y ∈ w1.filterMap g1 ↔ y ∈ w2.filterMap g2)
    (x : ObjKind × List String) :
    x ∈ m1.filterMap g1 ↔ x ∈ m2.filterMap g2 := by
  rw [foldExcept_mem_filterMap hf1 g1 x, foldExcept_mem_filterMap hf2 g2 x]
  constructor
  · rintro ⟨k, hk, w1, hw1, hx⟩
    obtain ⟨w2, hw2⟩ := foldExcept_ok_of_mem hf2 ((hks k).mp hk)
    exact ⟨k, (hks k).mp hk, w2, hw2,
      (hcross k w1 w2 hk hw1 hw2 x).mp hx⟩
  · rintro ⟨k, hk, w2, hw2, hx⟩
    have hk1 := (hks k).mpr hk
    obtain ⟨w1, hw1⟩ := foldExcept_ok_of_mem hf1 hk1
    exact ⟨k, hk1, w1, hw1,
      (hcross k w1 w2 hk1 hw1 hw2 x).mpr hx⟩

/-- Membership in the common-key list is symmetric in the two maps. -/
theorem common_keys_iff {α β : Type} (m1 : List (String × α))
    (m2 : List (String × β)) (k : String) :
    k ∈ (akeys m1).filter (fun k2 => decide (k2 ∈ akeys m2))
      ↔ k ∈ (akeys m2).filter (fun k2 => decide (k2 ∈ akeys m1)) := by
  simp only [List.mem_filter, decide_eq_true_eq]
  exact and_comm

/-- Mapped operations contribute nothing under an extractor that rejects
their shape. -/
theorem filterMap_map_none {α : Type} (l : List α)
    (f : α → MigrationOperation)
    (g : MigrationOperation → Option (ObjKind × List String))
    (h : ∀ a, g (f a) = none) : (l.map f).filterMap g = [] := by
  induction l with
  | nil => rfl
  | cons a rest ih => simp [h, ih]

/-- Mapped operations contribute exactly their names under an extractor
that accepts their shape. -/
theorem filterMap_map_some {α : Type} (l : List α)
    (f : α → MigrationOperation)
    (g : MigrationOperation → Option (ObjKind × List String))
    (h2 : α → ObjKind × List String)
    (h : ∀ a, g (f a) = some (h2 a)) : (l.map f).filterMap g = l.map h2 := by
  induction l with
  | nil => rfl
  | cons a rest ih => simp [h, ih]

/-! The column-level diff emits nothing when it succeeds: each of its
handlers is an unimplemented todo stub, so success means the alignment
was empty. -/

theorem gen_table_columns_ok_nil (table_name : List String)
    (previous current : Table) :
    ∀ (d : List DiffItem) (i j : Nat) (ops : List MigrationOperation),
      gen_table_columns table_name previous current d i j = Except.ok ops →
      ops = [] := by
  intro d i j ops h
  cases d with
  | nil =>
    simp only [gen_table_columns, Except.ok.injEq] at h
    exact h.symm
  | cons item rest =>
    cases item with
    | left a =>
      simp only [gen_table_columns] at h
      split at h
      · cases h
      · simp [gen_drop_column] at h
    | both a b =>
      simp only [gen_table_columns] at h
      split at h
      · simp [gen_alter_column] at h
      · cases h
    | right b =>
      simp only [gen_table_columns] at h
      split at h
      · cases h
      · simp [gen_add_column] at h

theorem gen_table_emit_ok_nil {schema_name : List String}
    {previous current : Table} {d : List DiffItem}
    {ops : List MigrationOperation}
    (h : gen_table_emit schema_name previous current d = Except.ok ops) :
    ops = [] := by
  simp only [gen_table_emit] at h
  cases h0 : schema_name.get? 0 <;> rw [h0] at h
  · cases h
  · cases h1 : schema_name.get? 1 <;> rw [h1] at h
    · cases h
    · exact gen_table_columns_ok_nil _ _ _ d 0 0 ops h

theorem gen_table_ok_nil {schema_name : List String}
    {previous current : Table} {ops : List MigrationOperation}
    (h : gen_table schema_name previous current = Except.ok ops) :
    ops = [] := by
  simp only [gen_table] at h
  rcases hsc : scanDiff
      (diffSlice (previous.columns.map fun c => c.name)
        (current.columns.map fun c => c.name)) 0 none none with ⟨fa, lc⟩
  rw [hsc] at h
  cases fa with
  | none => exact gen_table_emit_ok_nil h
  | some v1 =>
    cases lc with
    | none => exact gen_table_emit_ok_nil h
    | some v2 =>
      have h2 : (if v1 < v2 then Except.error Err.unsupportedDiff
          else gen_table_emit schema_name previous current
            (diffSlice (previous.columns.map fun c => c.name)
              (current.columns.map fun c => c.name))) = Except.ok ops := h
      by_cases hlt : v1 < v2
      · rw [if_pos hlt] at h2; cases h2
      · rw [if_neg hlt] at h2; exact gen_table_emit_ok_nil h2

/-! The per-key contributions of the table-level loops. -/

theorem dropped_table_op_ok {catalog_name : String} {previous current : Schema}
    {k : String} {w : List MigrationOperation}
    (h : dropped_table_op catalog_name previous current k = Except.ok w) :
    w.filterMap createdObj = []
      ∧ w.filterMap droppedObj
          = [(ObjKind.table, [catalog_name, current.name, k])] := by
  simp only [dropped_table_op] at h
  cases hl : alookup previous.tables k <;> rw [hl] at h
  · cases h
  · cases h
    exact ⟨rfl, rfl⟩

theorem created_table_op_ok {catalog_name : String} {previous current : Schema}
    {k : String} {w : List MigrationOperation}
    (h : created_table_op catalog_name previous current k = Except.ok w) :
    w.filterMap droppedObj = []
      ∧ w.filterMap createdObj
          = [(ObjKind.table, [catalog_name, current.name, k])] := by
  simp only [created_table_op] at h
  cases hl : alookup current.tables k <;> rw [hl] at h
  · cases h
  · cases h
    exact ⟨rfl, rfl⟩

theorem table_pair_ops_ok_nil {catalog_name : String} {previous current : Schema}
    {k : String} {w : List MigrationOperation}
    (h : table_pair_ops catalog_name previous current k = Except.ok w) :
    w = [] := by
  simp only [table_pair_ops] at h
  split at h
  · split at h
    · exact gen_table_ok_nil h
    · cases h; rfl
  · cases h

theorem gen_tables_inv {catalog_name : String} {previous current : Schema}
    {o : List MigrationOperation}
    (h : gen_tables catalog_name previous current = Except.ok o) :
    ∃ d1 c1 m1,
      foldExcept (dropped_table_op catalog_name previous current)
          ((akeys previous.tables).filter
            (fun k => decide (k ∉ akeys current.tables))) = Except.ok d1
      ∧ foldExcept (created_table_op catalog_name previous current)
          ((akeys current.tables).filter
            (fun k => decide (k ∉ akeys previous.tables))) = Except.ok c1
      ∧ foldExcept (table_pair_ops catalog_name previous current)
          ((akeys previous.tables).filter
            (fun k => decide (k ∈ akeys current.tables))) = Except.ok m1
      ∧ o = d1 ++ c1 ++ m1 := by
  simp only [gen_tables] at h
  cases hd : foldExcept (dropped_table_op catalog_name previous current)
      ((akeys previous.tables).filter
        (fun k => decide (k ∉ akeys current.tables))) with
  | error e => rw [hd] at h; cases h
  | ok d1 =>
    rw [hd] at h
    cases hc : foldExcept (created_table_op catalog_name previous current)
        ((akeys current.tables).filter
          (fun k => decide (k ∉ akeys previous.tables))) with
    | error e => rw [hc] at h; cases h
    | ok c1 =>
      rw [hc] at h
      cases hm : foldExcept (table_pair_ops catalog_name previous current)
          ((akeys previous.tables).filter
            (fun k => decide (k ∈ akeys current.tables))) with
      | error e => rw [hm] at h; cases h
      | ok m1 =>
        rw [hm] at h
        cases h
        exact ⟨d1, c1, m1, rfl, rfl, rfl, rfl⟩

theorem gen_tables_createdObjs {catalog_name : String}
    {previous current : Schema} {o : List MigrationOperation}
    (h : gen_tables catalog_name previous current = Except.ok o) :
    o.filterMap createdObj
      = ((akeys current.tables).filter
          (fun k => decide (k ∉ akeys previous.tables))).map
          (fun k => (ObjKind.table, [catalog_name, current.name, k])) := by
  obtain ⟨d1, c1, m1, hd, hc, hm, rfl⟩ := gen_tables_inv h
  rw [List.filterMap_append, List.filterMap_append]
  rw [foldExcept_filterMap_nil hd
    (fun k _ w hw => (dropped_table_op_ok hw).1)]
  rw [foldExcept_filterMap_map hc
    (fun k _ w hw => (created_table_op_ok hw).2)]
  rw [foldExcept_ok_nil_of hm
    (fun k _ w hw => table_pair_ops_ok_nil hw)]
  simp

theorem gen_tables_droppedObjs {catalog_name : String}
    {previous current : Schema} {o : List MigrationOperation}
    (h : gen_tables catalog_name previous current = Except.ok o) :
    o.filterMap droppedObj
      = ((akeys previous.tables).filter
          (fun k => decide (k ∉ akeys current.tables))).map
          (fun k => (ObjKind.table, [catalog_name, current.name, k])) := by
  obtain ⟨d1, c1, m1, hd, hc, hm, rfl⟩ := gen_tables_inv h
  rw [List.filterMap_append, List.filterMap_append]
  rw [foldExcept_filterMap_map hd
    (fun k _ w hw => (dropped_table_op_ok hw).2)]
  rw [foldExcept_filterMap_nil hc
    (fun k _ w hw => (created_table_op_ok hw).1)]
  rw [foldExcept_ok_nil_of hm
    (fun k _ w hw => table_pair_ops_ok_nil hw)]
  simp

/-- The common-schema iteration for one key in the two diff directions
yields mirror-image creates and drops, given that the name fields of the
two catalogs agree and that schema name fields match their keys. -/
theorem schema_pair_ops_cross {p c : Catalog} {k : String}
    {w1 w2 : List MigrationOperation}
    (hname : p.name = c.name)
    (hwp : ∀ k2 s, alookup p.schemas k2 = some s → s.name = k2)
    (hwc : ∀ k2 s, alookup c.schemas k2 = some s → s.name = k2)
    (h1 : schema_pair_ops p c k = Except.ok w1)
    (h2 : schema_pair_ops c p k = Except.ok w2) :
    w1.filterMap createdObj = w2.filterMap droppedObj := by
  simp only [schema_pair_ops] at h1 h2
  cases hps : alookup p.schemas k with
  | none => rw [hps] at h1; exact Except.noConfusion h1
  | some ps =>
    rw [hps] at h1
    cases hcs : alookup c.schemas k with
    | none => rw [hcs] at h1; exact Except.noConfusion h1
    | some cs =>
      rw [hcs] at h1
      rw [hcs, hps] at h2
      have h1b : (if ps.tables ≠ cs.tables then gen_tables c.name ps cs
          else Except.ok []) = Except.ok w1 := h1
      have h2b : (if cs.tables ≠ ps.tables then gen_tables p.name cs ps
          else Except.ok []) = Except.ok w2 := h2
      by_cases ht : ps.tables = cs.tables
      · rw [if_neg (not_ne_iff.mpr ht)] at h1b
        rw [if_neg (not_ne_iff.mpr ht.symm)] at h2b
        cases h1b; cases h2b; rfl
      · rw [if_pos ht] at h1b
        rw [if_pos (Ne.symm ht)] at h2b
        rw [gen_tables_createdObjs h1b, gen_tables_droppedObjs h2b]
        rw [hwp k ps hps, hwc k cs hcs, hname]

theorem gen_schemas_inv {previous current : Catalog}
    {o : List MigrationOperation}
    (h : gen_schemas previous current = Except.ok o) :
    ∃ m, foldExcept (schema_pair_ops previous current)
        ((akeys previous.schemas).filter
          (fun k => decide (k ∈ akeys current.schemas))) = Except.ok m
      ∧ o = ((akeys previous.schemas).filter
              (fun k => decide (k ∉ akeys current.schemas))).map
              (fun k => MigrationOperation.dropSchema [current.name, k])
          ++ ((akeys current.schemas).filter
              (fun k => decide (k ∉ akeys previous.schemas))).map
              (fun k => MigrationOperation.createSchema [current.name, k])
          ++ m := by
  simp only [gen_schemas] at h
  cases hm : foldExcept (schema_pair_ops previous current)
      ((akeys previous.schemas).filter
        (fun k => decide (k ∈ akeys current.schemas))) with
  | error e => rw [hm] at h; cases h
  | ok m =>
    rw [hm] at h
    cases h
    exact ⟨m, rfl, rfl⟩

/-- The schema-level diff of a common catalog pair, run in both
directions, pairs every created object with a dropped object of the same
qualified name. -/
theorem gen_schemas_cross {p c : Catalog} {o1 o2 : List MigrationOperation}
    (hname : p.name = c.name)
    (hwp : ∀ k s, alookup p.schemas k = some s → s.name = k)
    (hwc : ∀ k s, alookup c.schemas k = some s → s.name = k)
    (h1 : gen_schemas p c = Except.ok o1)
    (h2 : gen_schemas c p = Except.ok o2)
    (x : ObjKind × List String) :
    x ∈ o1.filterMap createdObj ↔ x ∈ o2.filterMap droppedObj := by
  obtain ⟨m1, hm1, rfl⟩ := gen_schemas_inv h1
  obtain ⟨m2, hm2, rfl⟩ := gen_schemas_inv h2
  have hA1 : (((akeys p.schemas).filter
      (fun k => decide (k ∉ akeys c.schemas))).map
      (fun k => MigrationOperation.dropSchema [c.name, k])).filterMap
        createdObj = [] :=
    filterMap_map_none _ _ _ (fun a => rfl)
  have hB1 : (((akeys c.schemas).filter
      (fun k => decide (k ∉ akeys p.schemas))).map
      (fun k => MigrationOperation.createSchema [c.name, k])).filterMap
        createdObj
      = ((akeys c.schemas).filter
          (fun k => decide (k ∉ akeys p.schemas))).map
          (fun k => (ObjKind.schema, [c.name, k])) :=
    filterMap_map_some _ _ _ _ (fun a => rfl)
  have hA2 : (((akeys c.schemas).filter
      (fun k => decide (k ∉ akeys p.schemas))).map
      (fun k => MigrationOperation.dropSchema [p.name, k])).filterMap
        droppedObj
      = ((akeys c.schemas).filter
          (fun k => decide (k ∉ akeys p.schemas))).map
          (fun k => (ObjKind.schema, [p.name, k])) :=
    filterMap_map_some _ _ _ _ (fun a => rfl)
  have hB2 : (((akeys p.schemas).filter
      (fun k => decide (k ∉ akeys c.schemas))).map
      (fun k => MigrationOperation.createSchema [p.name, k])).filterMap
        droppedObj = [] :=
    filterMap_map_none _ _ _ (fun a => rfl)
  have hM := foldExcept_mem_transfer hm1 hm2
    (common_keys_iff p.schemas c.schemas)
    (fun k w1 w2 hk hw1 hw2 y => by
      rw [schema_pair_ops_cross hname hwp hwc hw1 hw2]) x
  simp only [List.filterMap_append, List.mem_append, hA1, hB1, hA2, hB2,
    List.not_mem_nil, false_or, or_false]
  rw [hname]
  exact or_congr Iff.rfl hM

/-- The common-catalog iteration for one key in the two diff directions
yields mirror-image creates and drops, on well-formed snapshots. -/
theorem catalog_pair_ops_cross {P C : Dbinfo} {k : String}
    {w1 w2 : List MigrationOperation}
    (hwP : dbWF P = true) (hwC : dbWF C = true)
    (h1 : catalog_pair_ops P C k = Except.ok w1)
    (h2 : catalog_pair_ops C P k = Except.ok w2)
    (x : ObjKind × List String) :
    x ∈ w1.filterMap createdObj ↔ x ∈ w2.filterMap droppedObj := by
  simp only [catalog_pair_ops] at h1 h2
  cases hpc : alookup P.catalogs k with
  | none => rw [hpc] at h1; exact Except.noConfusion h1
  | some pc =>
    rw [hpc] at h1
    cases hcc : alookup C.catalogs k with
    | none => rw [hcc] at h1; exact Except.noConfusion h1
    | some cc =>
      rw [hcc] at h1
      rw [hcc, hpc] at h2
      obtain ⟨hpname, hpschemas⟩ := dbWF_lookup hwP hpc
      obtain ⟨hcname, hcschemas⟩ := dbWF_lookup hwC hcc
      have h1b : (if pc.default_schema ≠ cc.default_schema then
          gen_schemas pc cc else Except.ok []) = Except.ok w1 := h1
      have h2b : (if cc.default_schema ≠ pc.default_schema then
          gen_schemas cc pc else Except.ok []) = Except.ok w2 := h2
      by_cases hd : pc.default_schema = cc.default_schema
      · rw [if_neg (not_ne_iff.mpr hd)] at h1b
        rw [if_neg (not_ne_iff.mpr hd.symm)] at h2b
        cases h1b; cases h2b; simp
      · rw [if_pos hd] at h1b
        rw [if_pos (Ne.symm hd)] at h2b
        exact gen_schemas_cross (by rw [hpname, hcname]) hpschemas
          hcschemas h1b h2b x

theorem gen_catalogs_inv {previous current : Dbinfo}
    {o : List MigrationOperation}
    (h : gen_catalogs previous current = Except.ok o) :
    ∃ m, foldExcept (catalog_pair_ops previous current)
        ((akeys previous.catalogs).filter
          (fun k => decide (k ∈ akeys current.catalogs))) = Except.ok m
      ∧ o = ((akeys previous.catalogs).filter
              (fun k => decide (k ∉ akeys current.catalogs))).map
              (fun k => MigrationOperation.dropDatabase k)
          ++ ((akeys current.catalogs).filter
              (fun k => decide (k ∉ akeys previous.catalogs))).map
              (fun k => MigrationOperation.createDatabase k)
          ++ m := by
  simp only [gen_catalogs] at h
  cases hm : foldExcept (catalog_pair_ops previous current)
      ((akeys previous.catalogs).filter
        (fun k => decide (k ∈ akeys current.catalogs))) with
  | error e => rw [hm] at h; cases h
  | ok m =>
    rw [hm] at h
    cases h
    exact ⟨m, rfl, rfl⟩

/-- Core of the create/drop symmetry: on well-formed snapshots, when both
diff directions succeed, the created qualified names of one direction are
exactly the dropped qualified names of the other. -/
theorem generate_cross {P C : Dbinfo} {o1 o2 : List MigrationOperation}
    (hwP : dbWF P = true) (hwC : dbWF C = true)
    (h1 : generate P C = Except.ok o1)
    (h2 : generate C P = Except.ok o2)
    (x : ObjKind × List String) :
    x ∈ o1.filterMap createdObj ↔ x ∈ o2.filterMap droppedObj := by
  obtain ⟨m1, hm1, rfl⟩ := gen_catalogs_inv h1
  obtain ⟨m2, hm2, rfl⟩ := gen_catalogs_inv h2
  have hA1 : (((akeys P.catalogs).filter
      (fun k => decide (k ∉ akeys C.catalogs))).map
      (fun k => MigrationOperation.dropDatabase k)).filterMap
        createdObj = [] :=
    filterMap_map_none _ _ _ (fun a => rfl)
  have hB1 : (((akeys C.catalogs).filter
      (fun k => decide (k ∉ akeys P.catalogs))).map
      (fun k => MigrationOperation.createDatabase k)).filterMap
        createdObj
      = ((akeys C.catalogs).filter
          (fun k => decide (k ∉ akeys P.catalogs))).map
          (fun k => (ObjKind.database, [k])) :=
    filterMap_map_some _ _ _ _ (fun a => rfl)
  have hA2 : (((akeys C.catalogs).filter
      (fun k => decide (k ∉ akeys P.catalogs))).map
      (fun k => MigrationOperation.dropDatabase k)).filterMap
        droppedObj
      = ((akeys C.catalogs).filter
          (fun k => decide (k ∉ akeys P.catalogs))).map
          (fun k => (ObjKind.database, [k])) :=
    filterMap_map_some _ _ _ _ (fun a => rfl)
  have hB2 : (((akeys P.catalogs).filter
      (fun k => decide (k ∉ akeys C.catalogs))).map
      (fun k => MigrationOperation.createDatabase k)).filterMap
        droppedObj = [] :=
    filterMap_map_none _ _ _ (fun a => rfl)
  have hM := foldExcept_mem_transfer hm1 hm2
    (common_keys_iff P.catalogs C.catalogs)
    (fun k w1 w2 hk hw1 hw2 y =>
      catalog_pair_ops_cross hwP hwC hw1 hw2 y) x
  simp only [List.filterMap_append, List.mem_append, hA1, hB1, hA2, hB2,
    List.not_mem_nil, false_or, or_false]
  exact or_congr Iff.rfl hM

/-- C8 (amended: restricted to well-formed snapshots, in which every
catalog's name field equals its key in the catalogs map and every
schema's name field equals its key, as holds for snapshots built through
with_options and add_table).  When both diff directions succeed, every
CreateDatabase/CreateSchema/CreateTable of generate(P, C) has a
DropDatabase/DropSchema/DropTable with the same qualified name in
generate(C, P), and vice versa. -/
theorem generate_create_drop_symm (P C : Dbinfo)
    (o1 o2 : List MigrationOperation)
    (hwP : dbWF P = true) (hwC : dbWF C = true)
    (h1 : generate P C = Except.ok o1)
    (h2 : generate C P = Except.ok o2) :
    (∀ x, x ∈ o1.filterMap createdObj ↔ x ∈ o2.filterMap droppedObj)
    ∧ (∀ x, x ∈ o1.filterMap droppedObj ↔ x ∈ o2.filterMap createdObj) :=
  ⟨fun x => generate_cross hwP hwC h1 h2 x,
   fun x => (generate_cross hwC hwP h2 h1 x).symm⟩

/-- Previous snapshot of the symmetry counterexample: the catalog is
keyed k but its name field is A; default schema s1; schemas s1 and x. -/
def mismatchPrev : Dbinfo :=
  { dialect := Dialect.postgreSql, default_catalog := "k"
    catalogs := [("k",
      { name := "A", default_schema := "s1"
        schemas := [("s1", { name := "s1", tables := [] }),
                    ("x", { name := "x", tables := [] })] })] }

/-- Current snapshot of the symmetry counterexample: same key k but name
field B; default schema s2; single schema s2. -/
def mismatchCur : Dbinfo :=
  { dialect := Dialect.postgreSql, default_catalog := "k"
    catalogs := [("k",
      { name := "B", default_schema := "s2"
        schemas := [("s2", { name := "s2", tables := [] })] })] }

/-- C8 counterexample: both diff directions succeed, the forward diff
creates schema B.s2 (schema operations are qualified with the name field
of the current catalog, src/migrate/mod.rs lines 107 and 114), but the
reverse diff drops A.s2, not B.s2 — so the claim quantified over all
snapshot pairs is false when a catalog's name field differs from its map
key across the two snapshots. -/
theorem generate_symm_name_mismatch_cex :
    isOkE (generate mismatchPrev mismatchCur) = true
    ∧ isOkE (generate mismatchCur mismatchPrev) = true
    ∧ (ObjKind.schema, ["B", "s2"])
        ∈ (opsOf (generate mismatchPrev mismatchCur)).filterMap createdObj
    ∧ (ObjKind.schema, ["B", "s2"])
        ∉ (opsOf (generate mismatchCur mismatchPrev)).filterMap droppedObj := by
  refine ⟨rfl, rfl, by decide, by decide⟩

/-- A well-formed previous snapshot whose catalog db has default schema
s1 and schemas s1 and extra. -/
def wfPrevSnapshot : Dbinfo :=
  { dialect := Dialect.postgreSql, default_catalog := "db"
    catalogs := [("db",
      { name := "db", default_schema := "s1"
        schemas := [("s1", { name := "s1", tables := [] }),
                    ("extra", { name := "extra", tables := [] })] })] }

/-- A well-formed current snapshot whose catalog db has default schema s2
and single schema s2. -/
def wfCurSnapshot : Dbinfo :=
  { dialect := Dialect.postgreSql, default_catalog := "db"
    catalogs := [("db",
      { name := "db", default_schema := "s2"
        schemas := [("s2", { name := "s2", tables := [] })] })] }

/-- C8 witness: the symmetry theorem applied to a concrete well-formed
snapshot pair on which both diff directions succeed. -/
theorem generate_create_drop_symm_witness :
    dbWF wfPrevSnapshot = true ∧ dbWF wfCurSnapshot = true
    ∧ isOkE (generate wfPrevSnapshot wfCurSnapshot) = true
    ∧ isOkE (generate wfCurSnapshot wfPrevSnapshot) = true
    ∧ ((ObjKind.schema, ["db", "s2"]) ∈
        (opsOf (generate wfPrevSnapshot wfCurSnapshot)).filterMap createdObj
      ↔ (ObjKind.schema, ["db", "s2"]) ∈
        (opsOf (generate wfCurSnapshot wfPrevSnapshot)).filterMap droppedObj) := by
  refine ⟨by decide, by decide, rfl, rfl, ?_⟩
  exact (generate_create_drop_symm wfPrevSnapshot wfCurSnapshot _ _
    (by decide) (by decide) rfl rfl).1 (ObjKind.schema, ["db", "s2"])

end Migi
